import Mathlib

/-!
  # Verification of the CS415 browser card-game clients

  A shallow embedding of the five client scripts of this repository:
  the blackjack table client (src/static/game.js), the number-list client
  (first script of src/static/buttons.js), the blackjack table variant
  (second script of src/static/buttons.js), the simpler blackjack client
  (src/unnamed/part_000) and the two single-button clients
  (src/unnamed/part_001, src/unnamed/part_002).

  Each script wires click handlers that send JSON-encoded commands over a
  WebSocket and one message handler that branches on an incoming JSON
  value's tag and mutates the DOM.  The embedding models JSON values as an
  inductive type, the DOM as a record of container contents (each container
  a hidden flag and an ordered list of image source strings) and button
  flags, and each handler branch as a state-transition function translated
  line by line from the source.  Handlers that can raise an uncaught
  TypeError are Except-valued; an error result models the callback aborting.
-/

namespace CardClient

/-- JSON values as produced by the browser's JSON.parse.  Numbers are
modelled as integers: every number used by the scripts (player indices,
hand indices, slider values) is integral. -/
inductive Json where
  | null
  | bool (b : Bool)
  | num (n : Int)
  | str (s : String)
  | arr (elems : List Json)
  | obj (fields : List (String × Json))

/-- The JavaScript strict comparison of a parsed value with a string
literal (msg === "Tag"): true exactly when the value is that string. -/
def Json.isStr (j : Json) (s : String) : Bool :=
  match j with
  | .str t => t == s
  | _ => false

/-- The JavaScript msg.hasOwnProperty(key) test on a parsed JSON value,
for the tag keys the dispatchers check: only an object can own such a key
(autoboxed strings, numbers, booleans and arrays own only indices and
length).  Calling it on null throws; callers handle null separately. -/
def Json.hasOwn (j : Json) (k : String) : Bool :=
  match j with
  | .obj fields => fields.any fun f => f.1 == k
  | _ => false

/-- Property access obj.key on a parsed JSON value: the first field with
that key, or none (JavaScript undefined) when absent or not an object. -/
def Json.field (j : Json) (k : String) : Option Json :=
  match j with
  | .obj fields => (fields.find? fun f => f.1 == k).map fun f => f.2
  | _ => none

/-- JavaScript truthiness of a parsed JSON value (used for the can_split
and second_hand condition checks); none stands for undefined. -/
def truthy (j : Option Json) : Bool :=
  match j with
  | none => false
  | some .null => false
  | some (.bool b) => b
  | some (.num n) => n != 0
  | some (.str s) => s != ""
  | some (.arr _) => true
  | some (.obj _) => true

/-- A card as the scripts consume it: the rank and suit fragments spliced
into the image path.  JavaScript string concatenation turns either field
into text, so both are strings here. -/
structure Card where
  rank : String
  suit : String
deriving DecidableEq

/-- The image path of a face-up card, as built in every Dealt, DealDealer,
TotalHand, TotalDealerHand and EndGame branch. -/
def cardPath (c : Card) : String :=
  "/static/cards/" ++ c.rank ++ c.suit ++ ".svg"

/-- The image source chosen by the Dealt and DealDealer branches: the
card's path when the card field is non-null, the card back otherwise. -/
def cardSrc (card : Option Card) : String :=
  match card with
  | some c => cardPath c
  | none => "/static/cards/back.svg"

/-- The uncaught JavaScript errors the handlers can raise: a JSON.parse
failure (SyntaxError) or an access on a missing value (TypeError). -/
inductive JsError where
  | badJson
  | typeErr
deriving DecidableEq

/-- A card container (a player div, a split-hand div or the dealer div):
its hidden attribute and the ordered list of its child images' source
strings. -/
structure Cont where
  hidden : Bool
  children : List String
deriving DecidableEq

/-- Pointwise update of a family of containers at one index. -/
def updAt (f : Int → Cont) (i : Int) (c : Cont) : Int → Cont :=
  fun j => if j = i then c else f j

/-- The DOM state the blackjack table scripts touch.  The page's HTML is
not part of the repository, so the player and split containers are a total
family indexed by the integer in the element identifier (player i and
player i.1); the claims only exercise in-range indices. -/
structure GDom where
  players : Int → Cont
  splits : Int → Cont
  dealer : Cont
  player_count : Int
  dealDisabled : Bool
  endTurnDisabled : Bool
  splitHidden : Bool
  splitDisabled : Bool
  startHidden : Bool
  startDisabled : Bool
  betButtonHidden : Bool
  betLabelHidden : Bool
  betSliderHidden : Bool

/-- The EndTurn branch of src/static/game.js (lines 26-29): disable the
deal button. -/
def endTurnStep (st : GDom) : GDom :=
  { st with dealDisabled := true }

/-- The NewHost branch of src/static/game.js (lines 30-40): reveal and
enable the start button (its click handler is covered by the outgoing
payload model). -/
def newHostStep (st : GDom) : GDom :=
  { st with startHidden := false, startDisabled := false }

/-- The RequestBet branch of src/static/game.js (lines 41-59): reveal the
bet label, button and slider (the slider and button handlers are covered
by the outgoing payload model). -/
def requestBetStep (st : GDom) : GDom :=
  { st with betLabelHidden := false, betButtonHidden := false,
            betSliderHidden := false }

/-- The YourTurn branch of src/static/game.js (lines 61-69): enable the
end-turn and deal buttons, and when can_split is truthy also reveal and
enable the split button. -/
def yourTurnStep (st : GDom) (can_split : Bool) : GDom :=
  let st1 := { st with endTurnDisabled := false, dealDisabled := false }
  if can_split then { st1 with splitHidden := false, splitDisabled := false }
  else st1

/-- The PlayerSplit branch of src/static/game.js (lines 71-75): unhide the
split container and move the player container's first child into it.
When the player container is empty, appendChild(null) throws a TypeError
(after the removeAttribute has already run; the partial mutation of an
aborted callback is not tracked). -/
def playerSplitStep (st : GDom) (p : Int) : Except JsError GDom :=
  match (st.players p).children with
  | [] => .error .typeErr
  | c :: rest =>
      .ok { st with
        splits := updAt st.splits p
          ⟨false, (st.splits p).children ++ [c]⟩,
        players := updAt st.players p
          ⟨(st.players p).hidden, rest⟩ }

/-- Overwrite the sources of the leading images of a container with a
hand's card paths, as the index loops of the TotalHand, TotalDealerHand
and EndGame branches do: the i-th image's src becomes the i-th card's
path; when the hand is longer than the image list the loop reads a missing
image and throws a TypeError. -/
def overwriteSrcs : List String → List Card → Except JsError (List String)
  | imgs, [] => .ok imgs
  | [], _ :: _ => .error .typeErr
  | _ :: imgs, c :: cards =>
      (overwriteSrcs imgs cards).map fun rest => cardPath c :: rest

/-- The EndGame branch of src/static/game.js (lines 77-102): disable both
buttons, then rewrite the dealer container's image sources from the
dealer_hand field (the alert text, socket close and redirect have no DOM
effect and are not modelled). -/
def endGameStep (st : GDom) (dealer_hand : List Card) : Except JsError GDom :=
  let st1 := { st with dealDisabled := true, endTurnDisabled := true }
  (overwriteSrcs st1.dealer.children dealer_hand).map fun cs =>
    { st1 with dealer := { st1.dealer with children := cs } }

/-- The for loop of the PlayerJoin branch: remove the hidden attribute of
the containers player i, player i+1, ..., one per fuel unit. -/
def unhideFrom (f : Int → Cont) (i : Int) : Nat → (Int → Cont)
  | 0 => f
  | fuel + 1 =>
      unhideFrom (updAt f i { f i with hidden := false }) (i + 1) fuel

/-- The PlayerJoin branch of src/static/game.js (lines 104-110): set the
tracked player count to the message's player field and unhide the
containers player 0 through player n-1 (the loop runs n times when n is
positive, not at all otherwise). -/
def playerJoinStep (st : GDom) (n : Int) : GDom :=
  { st with player_count := n, players := unhideFrom st.players 0 n.toNat }

/-- One iteration of the shifting loop of the PlayerLeave branch, at index
i: move every child of container player i+1 into container player i, in
order; then, when the split container player i+1.1 is not hidden, unhide
player i.1, move player i+1.1's children into it, and hide player i+1.1. -/
def shiftStep (st : GDom) (i : Int) : GDom :=
  let moved := { st with
    players := updAt
      (updAt st.players i
        ⟨(st.players i).hidden,
         (st.players i).children ++ (st.players (i + 1)).children⟩)
      (i + 1) ⟨(st.players (i + 1)).hidden, []⟩ }
  if (moved.splits (i + 1)).hidden = false then
    { moved with
      splits := updAt
        (updAt moved.splits i
          ⟨false, (moved.splits i).children ++ (moved.splits (i + 1)).children⟩)
        (i + 1) ⟨true, []⟩ }
  else moved

/-- The shifting loop of the PlayerLeave branch: run shiftStep at indices
i, i+1, ..., one per fuel unit. -/
def shiftFrom (st : GDom) (i : Int) : Nat → GDom
  | 0 => st
  | fuel + 1 => shiftFrom (shiftStep st i) (i + 1) fuel

/-- The PlayerLeave branch of src/static/game.js (lines 112-144): clear
and hide the leaving player's container and split container, shift every
later player's children down one slot (the loop runs for index i from the
leaving index while i is less than the player count), hide the container
and split container of the last player, and decrement the count. -/
def playerLeaveStep (st : GDom) (k : Int) : GDom :=
  let st1 := { st with
    players := updAt st.players k ⟨true, []⟩,
    splits := updAt st.splits k ⟨true, []⟩ }
  let st2 := shiftFrom st1 k (st.player_count - k).toNat
  let last := st.player_count - 1
  let st3 := { st2 with
    players := updAt st2.players last ⟨true, (st2.players last).children⟩,
    splits := updAt st2.splits last ⟨true, (st2.splits last).children⟩ }
  { st3 with player_count := st.player_count - 1 }

/-- The Dealt branch of src/static/game.js (lines 146-164): build one
image whose src is the card's path (or the card back when the card field
is null) and append it to container player hand, or to the split container
player hand.1 when second_hand is truthy. -/
def dealtStep (st : GDom) (hand : Int) (second : Bool) (card : Option Card) :
    GDom :=
  if second then
    let tgt := st.splits hand
    { st with splits := updAt st.splits hand ⟨tgt.hidden, tgt.children ++ [cardSrc card]⟩ }
  else
    let tgt := st.players hand
    { st with players := updAt st.players hand ⟨tgt.hidden, tgt.children ++ [cardSrc card]⟩ }

/-- The DealDealer branch of src/static/game.js (lines 166-180): build one
image from the card field and append it to the dealer container. -/
def dealDealerStep (st : GDom) (card : Option Card) : GDom :=
  { st with dealer :=
      { st.dealer with children := st.dealer.children ++ [cardSrc card] } }

/-- The TotalHand branch of the second script of src/static/buttons.js
(lines 160-170): rewrite the leading image sources of container
player p (or of split container player p.1 when second_hand is truthy)
with the hand's card paths, one image per card in hand order. -/
def totalHandStep (st : GDom) (p : Int) (second : Bool) (hand : List Card) :
    Except JsError GDom :=
  if second then
    (overwriteSrcs (st.splits p).children hand).map fun cs =>
      { st with splits := updAt st.splits p ⟨(st.splits p).hidden, cs⟩ }
  else
    (overwriteSrcs (st.players p).children hand).map fun cs =>
      { st with players := updAt st.players p ⟨(st.players p).hidden, cs⟩ }

/-- The TotalDealerHand branch of the second script of
src/static/buttons.js (lines 171-177): rewrite the leading image sources
of the dealer container with the hand's card paths. -/
def totalDealerHandStep (st : GDom) (hand : List Card) :
    Except JsError GDom :=
  (overwriteSrcs st.dealer.children hand).map fun cs =>
    { st with dealer := { st.dealer with children := cs } }

/-- The branches of the src/static/game.js message dispatcher, in source
order. -/
inductive GBranch where
  | endTurn | newHost | requestBet | yourTurn | playerSplit | endGame
  | playerJoin | playerLeave | dealt | dealDealer
deriving DecidableEq

/-- The branch-selection chain of the ws.onmessage handler of
src/static/game.js (lines 26-182): three strict string comparisons, then
hasOwnProperty checks in source order.  A null message fails the string
comparisons and then throws a TypeError at the first hasOwnProperty call;
any other message matching no check selects no branch. -/
def dispatchGame (j : Json) : Except JsError (Option GBranch) :=
  if j.isStr "EndTurn" then .ok (some .endTurn)
  else if j.isStr "NewHost" then .ok (some .newHost)
  else if j.isStr "RequestBet" then .ok (some .requestBet)
  else
    match j with
    | .null => .error .typeErr
    | _ =>
      if j.hasOwn "YourTurn" then .ok (some .yourTurn)
      else if j.hasOwn "PlayerSplit" then .ok (some .playerSplit)
      else if j.hasOwn "EndGame" then .ok (some .endGame)
      else if j.hasOwn "PlayerJoin" then .ok (some .playerJoin)
      else if j.hasOwn "PlayerLeave" then .ok (some .playerLeave)
      else if j.hasOwn "Dealt" then .ok (some .dealt)
      else if j.hasOwn "DealDealer" then .ok (some .dealDealer)
      else .ok none

/-- The well-formed messages the src/static/game.js handler consumes, one
constructor per dispatcher branch, carrying the payload fields the branch
reads. -/
inductive GMsg where
  | endTurn
  | newHost
  | requestBet
  | yourTurn (can_split : Bool)
  | playerSplit (player : Int)
  | endGame (dealer_hand : List Card)
  | playerJoin (player : Int)
  | playerLeave (player : Int)
  | dealt (hand : Int) (second_hand : Bool) (card : Option Card)
  | dealDealer (card : Option Card)

/-- Read a numeric payload field. -/
def asNum (j : Option Json) : Option Int :=
  match j with
  | some (.num n) => some n
  | _ => none

/-- Read a rank or suit fragment: a string, or a number coerced to text
as JavaScript string concatenation would. -/
def asText (j : Option Json) : Option String :=
  match j with
  | some (.str s) => some s
  | some (.num n) => some (toString n)
  | _ => none

/-- Decode a card payload field: null means a face-down card; otherwise
the rank and suit fields must be present. -/
def decodeCard (j : Json) : Option (Option Card) :=
  match j with
  | .null => some none
  | _ =>
      match asText (j.field "rank"), asText (j.field "suit") with
      | some r, some s => some (some ⟨r, s⟩)
      | _, _ => none

/-- Decode a dealer_hand array of face-up cards. -/
def decodeCards (j : Json) : Option (List Card) :=
  match j with
  | .arr elems =>
      elems.mapM fun e =>
        match asText (e.field "rank"), asText (e.field "suit") with
        | some r, some s => some (⟨r, s⟩ : Card)
        | _, _ => none
  | _ => none

/-- Decode a parsed JSON value into a well-formed src/static/game.js
message, following the dispatcher's branch order.  A value that selects
a branch but whose payload lacks the fields the branch reads as numbers,
cards or arrays decodes to none; the JavaScript coercion behaviour on
such ill-typed payloads is outside the model (the spec fixes the field
shapes the counterpart server sends).  Truthiness-tested fields
(can_split, second_hand) default to false when absent, as undefined is
falsy. -/
def decodeGMsg (j : Json) : Option GMsg :=
  if j.isStr "EndTurn" then some .endTurn
  else if j.isStr "NewHost" then some .newHost
  else if j.isStr "RequestBet" then some .requestBet
  else if j.hasOwn "YourTurn" then
    some (.yourTurn (truthy ((j.field "YourTurn").bind fun p => p.field "can_split")))
  else if j.hasOwn "PlayerSplit" then
    ((j.field "PlayerSplit").bind fun p => asNum (p.field "player")).map .playerSplit
  else if j.hasOwn "EndGame" then
    ((j.field "EndGame").bind fun p => (p.field "dealer_hand").bind decodeCards).map .endGame
  else if j.hasOwn "PlayerJoin" then
    ((j.field "PlayerJoin").bind fun p => asNum (p.field "player")).map .playerJoin
  else if j.hasOwn "PlayerLeave" then
    ((j.field "PlayerLeave").bind fun p => asNum (p.field "player")).map .playerLeave
  else if j.hasOwn "Dealt" then
    (j.field "Dealt").bind fun p =>
      match asNum (p.field "hand"), (p.field "card").bind decodeCard with
      | some h, some c => some (.dealt h (truthy (p.field "second_hand")) c)
      | _, _ => none
  else if j.hasOwn "DealDealer" then
    (j.field "DealDealer").bind fun p =>
      ((p.field "card").bind decodeCard).map .dealDealer
  else none

/-- One step of the src/static/game.js handler on a well-formed message:
the branch bodies assembled. -/
def stepGame (st : GDom) (m : GMsg) : Except JsError GDom :=
  match m with
  | .endTurn => .ok (endTurnStep st)
  | .newHost => .ok (newHostStep st)
  | .requestBet => .ok (requestBetStep st)
  | .yourTurn cs => .ok (yourTurnStep st cs)
  | .playerSplit p => playerSplitStep st p
  | .endGame cards => endGameStep st cards
  | .playerJoin n => .ok (playerJoinStep st n)
  | .playerLeave k => .ok (playerLeaveStep st k)
  | .dealt h s c => .ok (dealtStep st h s c)
  | .dealDealer c => .ok (dealDealerStep st c)

/-! ## A model of the browser's JSON.parse

The scripts' first act on every socket event is JSON.parse(event.data);
the parser below models it (numbers restricted to integers, the escapes
the payloads use, no unicode escapes). -/

/-- Drop the blanks JSON permits between tokens. -/
def dropBlanks : List Char → List Char
  | [] => []
  | c :: rest =>
      if c == ' ' || c == '\n' || c == '\t' || c == '\r' then dropBlanks rest
      else c :: rest

/-- Strip an expected literal, character by character, from the head of
the input. -/
def stripChars : List Char → List Char → Option (List Char)
  | [], rest => some rest
  | l :: ls, c :: rest => if c == l then stripChars ls rest else none
  | _ :: _, [] => none

/-- Strip a keyword literal (null, true, false) from the head of the
input. -/
def stripLit (lit : String) (cs : List Char) : Option (List Char) :=
  stripChars lit.toList cs

/-- Decode one simple string escape; unicode escapes are not modelled
(no payload of the protocol uses them). -/
def unescape (e : Char) : Option Char :=
  if e == '"' then some '"'
  else if e == '\\' then some '\\'
  else if e == '/' then some '/'
  else if e == 'n' then some '\n'
  else if e == 't' then some '\t'
  else if e == 'r' then some '\r'
  else none

/-- Scan the body of a quoted string after its opening quote, up to and
beyond the closing quote. -/
def scanQuoted : List Char → Option (List Char × List Char)
  | [] => none
  | c :: rest =>
      if c == '"' then some ([], rest)
      else if c == '\\' then
        match rest with
        | [] => none
        | e :: rest2 =>
            match unescape e, scanQuoted rest2 with
            | some d, some (tail, fin) => some (d :: tail, fin)
            | _, _ => none
      else
        match scanQuoted rest with
        | some (tail, fin) => some (c :: tail, fin)
        | none => none

/-- Scan a run of decimal digits, accumulating their value. -/
def scanNat (acc : Nat) : List Char → (Nat × List Char)
  | [] => (acc, [])
  | c :: rest =>
      if c.isDigit then scanNat (acc * 10 + (c.toNat - 48)) rest
      else (acc, c :: rest)

mutual

/-- Read one JSON value, recursion bounded by the nesting depth. -/
def readJson : Nat → List Char → Option (Json × List Char)
  | 0, _ => none
  | depth + 1, input =>
      let cs := dropBlanks input
      match stripLit "null" cs with
      | some fin => some (.null, fin)
      | none =>
      match stripLit "true" cs with
      | some fin => some (.bool true, fin)
      | none =>
      match stripLit "false" cs with
      | some fin => some (.bool false, fin)
      | none =>
      match cs with
      | [] => none
      | c :: body =>
          if c == '"' then
            match scanQuoted body with
            | some (chars, fin) => some (.str (String.mk chars), fin)
            | none => none
          else if c == '[' then
            match dropBlanks body with
            | ']' :: fin => some (.arr [], fin)
            | inner =>
                match readElems depth inner with
                | some (vs, fin) => some (.arr vs, fin)
                | none => none
          else if c == '{' then
            match dropBlanks body with
            | '}' :: fin => some (.obj [], fin)
            | inner =>
                match readFields depth inner with
                | some (fs, fin) => some (.obj fs, fin)
                | none => none
          else if c == '-' then
            match body with
            | d :: _ =>
                if d.isDigit then
                  let q := scanNat 0 body
                  some (.num (-(q.1 : Int)), q.2)
                else none
            | [] => none
          else if c.isDigit then
            let q := scanNat 0 cs
            some (.num (q.1 : Int), q.2)
          else none

/-- Read the comma-separated elements of a non-empty array together with
its closing bracket. -/
def readElems : Nat → List Char → Option (List Json × List Char)
  | 0, _ => none
  | depth + 1, cs =>
      match readJson depth cs with
      | none => none
      | some (v, rest) =>
          match dropBlanks rest with
          | ',' :: more =>
              match readElems depth more with
              | some (vs, fin) => some (v :: vs, fin)
              | none => none
          | ']' :: fin => some ([v], fin)
          | _ => none

/-- Read the comma-separated fields of a non-empty object together with
its closing brace. -/
def readFields : Nat → List Char → Option (List (String × Json) × List Char)
  | 0, _ => none
  | depth + 1, cs =>
      match cs with
      | '"' :: afterQuote =>
          match scanQuoted afterQuote with
          | none => none
          | some (key, afterKey) =>
              match dropBlanks afterKey with
              | ':' :: afterColon =>
                  match readJson depth afterColon with
                  | none => none
                  | some (v, rest) =>
                      match dropBlanks rest with
                      | ',' :: more =>
                          match readFields depth more with
                          | some (fs, fin) =>
                              some ((String.mk key, v) :: fs, fin)
                          | none => none
                      | '}' :: fin => some ([(String.mk key, v)], fin)
                      | _ => none
              | _ => none
      | _ => none

end

/-- The model of JSON.parse: read one value and require only trailing
blanks after it; any other input is a SyntaxError (none).  Numbers are
read as integers, matching the integral payloads of the protocol. -/
def jsonParse (s : String) : Option Json :=
  match readJson (s.length + 1) s.toList with
  | some (j, rest) =>
      match dropBlanks rest with
      | [] => some j
      | _ => none
  | none => none

/-- The whole ws.onmessage callback of src/static/game.js (lines 23-183):
JSON.parse first — its failure raises an uncaught SyntaxError before any
DOM mutation — then the branch dispatch.  A null message throws a
TypeError at the hasOwnProperty checks; a message selecting no branch, or
one whose payload the model does not decode, leaves the state as is. -/
def onmessageGame (st : GDom) (data : String) : Except JsError GDom :=
  match jsonParse data with
  | none => .error .badJson
  | some j =>
      match decodeGMsg j with
      | some m => stepGame st m
      | none =>
          match j with
          | .null => .error .typeErr
          | _ => .ok st

/-- The DOM visible after the src/static/game.js callback ran on an event:
an uncaught error aborts the callback, leaving the state it had reached —
for a parse error, the untouched input state. -/
def gDomAfter (st : GDom) (data : String) : GDom :=
  match onmessageGame st data with
  | .ok st2 => st2
  | .error _ => st

/-- The DOM state the first script of src/static/buttons.js touches: the
two button flags and the list of entries of the cards list element. -/
structure B1Dom where
  dealDisabled : Bool
  shuffleDisabled : Bool
  cards : List Json

/-- The ws.onmessage callback of the first script of src/static/buttons.js
(lines 21-29): JSON.parse first, then either disable the deal button (a
null message) or append the message to the cards list (any other
message). -/
def onmessageNumbers (st : B1Dom) (data : String) : Except JsError B1Dom :=
  match jsonParse data with
  | none => .error .badJson
  | some msg =>
      match msg with
      | .null => .ok { st with dealDisabled := true }
      | _ => .ok { st with cards := st.cards ++ [msg] }

/-- The DOM visible after the first buttons.js callback ran on an event. -/
def b1DomAfter (st : B1Dom) (data : String) : B1Dom :=
  match onmessageNumbers st data with
  | .ok st2 => st2
  | .error _ => st

/-- The DOM state the single-button clients (src/unnamed/part_001 and
src/unnamed/part_002) touch; the text box exists only in part_002 and its
handler never touches it. -/
structure ClickDom where
  joinDisabled : Bool
  joinHidden : Bool
  clickDisabled : Bool
  clickHidden : Bool
  textHidden : Bool
deriving DecidableEq

/-- The ws.onmessage callback of src/unnamed/part_001 (lines 13-21) on a
parsed message: enable the click button when the message is the string
YourTurn, otherwise log an error and change nothing.  The returned flag
records whether the error was logged. -/
def part001OnMessage (st : ClickDom) (msg : Json) : ClickDom × Bool :=
  if msg.isStr "YourTurn" then ({ st with clickDisabled := false }, false)
  else (st, true)

/-- The ws.onmessage callback of src/unnamed/part_002 (lines 15-23) on a
parsed message: identical to the part_001 callback. -/
def part002OnMessage (st : ClickDom) (msg : Json) : ClickDom × Bool :=
  if msg.isStr "YourTurn" then ({ st with clickDisabled := false }, false)
  else (st, true)

/-! ## The outgoing payloads

Every ws.send in the repository sits inside a click handler.  The
enumeration below lists every click handler of every script; the payload
list of each is read off its body. -/

/-- Every click handler of every script: the end-turn, deal, split, start
and bet handlers of src/static/game.js; the deal and shuffle handlers of
the first script of src/static/buttons.js; the end-turn, deal, split and
start handlers of the second script of src/static/buttons.js; the
end-turn, deal and start handlers of src/unnamed/part_000; and the join
and click handlers of src/unnamed/part_001 and src/unnamed/part_002.  The
bet handler carries the numeric value of the bet slider at click time. -/
inductive ClickHandler where
  | gameEndTurn | gameDeal | gameSplit | gameStart | gameBet (amount : Int)
  | numbersDeal | numbersShuffle
  | tableEndTurn | tableDeal | tableSplit | tableStart
  | simpleEndTurn | simpleDeal | simpleStart
  | counterJoin1 | counterClick1
  | counterJoin2 | counterClick2

/-- The JSON value sent by the bet handler of src/static/game.js
(lines 52-59): an object with the single key Bet whose payload has the
single numeric field amount. -/
def betPayload (n : Int) : Json :=
  .obj [("Bet", .obj [("amount", .num n)])]

/-- The values passed to ws.send by each click handler, in order (the
join handlers send nothing: they open the socket). -/
def sentPayloads : ClickHandler → List Json
  | .gameEndTurn => [.str "EndTurn"]
  | .gameDeal => [.str "Deal"]
  | .gameSplit => [.str "Split"]
  | .gameStart => [.str "GameStart"]
  | .gameBet n => [betPayload n]
  | .numbersDeal => [.str "Next"]
  | .numbersShuffle => [.str "Clear"]
  | .tableEndTurn => [.str "EndTurn"]
  | .tableDeal => [.str "Deal"]
  | .tableSplit => [.str "Split"]
  | .tableStart => [.str "GameStart"]
  | .simpleEndTurn => [.str "EndTurn"]
  | .simpleDeal => [.str "Deal"]
  | .simpleStart => [.str "GameStart"]
  | .counterJoin1 => []
  | .counterClick1 => [.str "Click"]
  | .counterJoin2 => []
  | .counterClick2 => [.str "Click"]

/-- The payload shapes the spec permits: the eight command strings, or a
Bet object carrying a numeric amount. -/
def AllowedPayload (j : Json) : Prop :=
  j = .str "EndTurn" ∨ j = .str "Deal" ∨ j = .str "Next" ∨ j = .str "Clear" ∨
  j = .str "Shuffle" ∨ j = .str "Split" ∨ j = .str "Click" ∨
  j = .str "GameStart" ∨ ∃ n : Int, j = betPayload n

/-! ## Message sequences over the table state -/

/-- A PlayerJoin or PlayerLeave message, for sequencing. -/
inductive JLMsg where
  | join (n : Int)
  | leave (k : Int)

/-- Run a sequence of PlayerJoin and PlayerLeave messages through the
src/static/game.js handler branches. -/
def runJL (st : GDom) : List JLMsg → GDom
  | [] => st
  | .join n :: rest => runJL (playerJoinStep st n) rest
  | .leave k :: rest => runJL (playerLeaveStep st k) rest

/-- The table page as loaded: no players tracked, every player and split
container hidden and empty, the dealer empty, the optional controls
hidden. -/
def initialGDom : GDom where
  players := fun _ => ⟨true, []⟩
  splits := fun _ => ⟨true, []⟩
  dealer := ⟨false, []⟩
  player_count := 0
  dealDisabled := false
  endTurnDisabled := false
  splitHidden := true
  splitDisabled := true
  startHidden := true
  startDisabled := true
  betButtonHidden := true
  betLabelHidden := true
  betSliderHidden := true

/-- A join-and-leave sequence in which every join raises the player count
and every leave removes the last player, checked against the running
state. -/
def orderlySeq (st : GDom) : List JLMsg → Bool
  | [] => true
  | .join n :: rest =>
      st.player_count ≤ n && orderlySeq (playerJoinStep st n) rest
  | .leave k :: rest =>
      1 ≤ st.player_count && k == st.player_count - 1 &&
        orderlySeq (playerLeaveStep st k) rest

/-- The tracked-count invariant: the visible primary player containers are
exactly player 0 through player count-1, so the count equals the number of
visible primary containers. -/
def CountMatchesVisible (st : GDom) : Prop :=
  ∀ i : Int, (st.players i).hidden = false ↔ 0 ≤ i ∧ i < st.player_count

/-! ## Container-family lemmas -/

lemma updAt_same (f : Int → Cont) (i : Int) (c : Cont) : updAt f i c i = c := by
  simp [updAt]

lemma updAt_ne (f : Int → Cont) (i : Int) (c : Cont) (j : Int) (h : j ≠ i) :
    updAt f i c j = f j := by
  simp [updAt, h]

lemma unhideFrom_eq (f : Int → Cont) (i : Int) (fuel : Nat) (j : Int) :
    unhideFrom f i fuel j =
      if i ≤ j ∧ j < i + (fuel : Int) then { f j with hidden := false }
      else f j := by
  induction fuel generalizing f i with
  | zero =>
      rw [unhideFrom]
      split
      case isTrue h => exact absurd h (by omega)
      case isFalse h => rfl
  | succ n ih =>
      rw [unhideFrom, ih]
      by_cases hj : j = i
      · subst hj
        have h1 : ¬(j + 1 ≤ j ∧ j < j + 1 + (n : Int)) := by omega
        have h2 : j ≤ j ∧ j < j + ((n + 1 : Nat) : Int) := by
          constructor
          · exact le_refl j
          · omega
        simp [h1, h2, updAt]
      · rw [updAt_ne _ _ _ _ hj]
        have : (i + 1 ≤ j ∧ j < i + 1 + (n : Int)) ↔
            (i ≤ j ∧ j < i + ((n + 1 : Nat) : Int)) := by omega
        rw [if_congr this rfl rfl]

lemma shiftStep_players (st : GDom) (i j : Int) :
    (shiftStep st i).players j =
      updAt (updAt st.players i
          ⟨(st.players i).hidden,
           (st.players i).children ++ (st.players (i + 1)).children⟩)
        (i + 1) ⟨(st.players (i + 1)).hidden, []⟩ j := by
  unfold shiftStep
  dsimp only
  split <;> rfl

lemma shiftStep_count (st : GDom) (i : Int) :
    (shiftStep st i).player_count = st.player_count := by
  unfold shiftStep
  dsimp only
  split <;> rfl

lemma shiftFrom_count (st : GDom) (i : Int) (fuel : Nat) :
    (shiftFrom st i fuel).player_count = st.player_count := by
  induction fuel generalizing st i with
  | zero => rfl
  | succ n ih => rw [shiftFrom, ih, shiftStep_count]

lemma shiftFrom_players_low (st : GDom) (i : Int) (fuel : Nat) (j : Int)
    (h : j < i) : (shiftFrom st i fuel).players j = st.players j := by
  induction fuel generalizing st i with
  | zero => rfl
  | succ n ih =>
      rw [shiftFrom, ih _ _ (by omega), shiftStep_players,
        updAt_ne _ _ _ _ (by omega), updAt_ne _ _ _ _ (by omega)]

lemma shiftFrom_players_hidden (st : GDom) (i : Int) (fuel : Nat) (j : Int) :
    ((shiftFrom st i fuel).players j).hidden = (st.players j).hidden := by
  induction fuel generalizing st i with
  | zero => rfl
  | succ n ih =>
      rw [shiftFrom, ih, shiftStep_players]
      by_cases h1 : j = i + 1
      · subst h1; rw [updAt_same]
      · rw [updAt_ne _ _ _ _ h1]
        by_cases h2 : j = i
        · subst h2; rw [updAt_same]
        · rw [updAt_ne _ _ _ _ h2]

lemma shiftFrom_children_shift (st : GDom) (i : Int) (fuel : Nat)
    (h0 : (st.players i).children = []) :
    ∀ j : Int, i ≤ j → j < i + (fuel : Int) →
      ((shiftFrom st i fuel).players j).children =
        (st.players (j + 1)).children := by
  induction fuel generalizing st i with
  | zero => intro j h1 h2; omega
  | succ n ih =>
      intro j h1 h2
      rw [shiftFrom]
      by_cases hj : j = i
      · subst hj
        rw [shiftFrom_players_low _ _ _ _ (by omega), shiftStep_players,
          updAt_ne _ _ _ _ (by omega), updAt_same, h0]
        simp
      · have hj1 : i + 1 ≤ j := by omega
        have hstep0 : ((shiftStep st i).players (i + 1)).children = [] := by
          rw [shiftStep_players, updAt_same]
        rw [ih _ _ hstep0 j hj1 (by omega), shiftStep_players,
          updAt_ne _ _ _ _ (by omega), updAt_ne _ _ _ _ (by omega)]

/-! ## PlayerLeave characterization -/

lemma playerLeaveStep_count (st : GDom) (k : Int) :
    (playerLeaveStep st k).player_count = st.player_count - 1 := rfl

lemma playerLeaveStep_players_hidden (st : GDom) (k j : Int) :
    ((playerLeaveStep st k).players j).hidden =
      if j = k ∨ j = st.player_count - 1 then true
      else (st.players j).hidden := by
  unfold playerLeaveStep
  dsimp only
  by_cases hl : j = st.player_count - 1
  · subst hl; simp [updAt_same]
  · rw [updAt_ne _ _ _ _ hl, shiftFrom_players_hidden]
    by_cases hk : j = k
    · subst hk; simp [updAt_same]
    · dsimp only
      rw [updAt_ne _ _ _ _ hk]
      simp [hk, hl]

lemma playerLeaveStep_children_shift (st : GDom) (k : Int)
    (hk : k < st.player_count) :
    ∀ j : Int, k ≤ j → j < st.player_count →
      ((playerLeaveStep st k).players j).children =
        (st.players (j + 1)).children := by
  intro j h1 h2
  unfold playerLeaveStep
  dsimp only
  have hchild : ∀ m : Int,
      ((updAt
          (shiftFrom
            { st with
              players := updAt st.players k ⟨true, []⟩,
              splits := updAt st.splits k ⟨true, []⟩ }
            k (st.player_count - k).toNat).players (st.player_count - 1)
          ⟨true,
           ((shiftFrom
              { st with
                players := updAt st.players k ⟨true, []⟩,
                splits := updAt st.splits k ⟨true, []⟩ }
              k (st.player_count - k).toNat).players
              (st.player_count - 1)).children⟩) m).children =
      ((shiftFrom
          { st with
            players := updAt st.players k ⟨true, []⟩,
            splits := updAt st.splits k ⟨true, []⟩ }
          k (st.player_count - k).toNat).players m).children := by
    intro m
    by_cases hm : m = st.player_count - 1
    · subst hm; rw [updAt_same]
    · rw [updAt_ne _ _ _ _ hm]
  show ((updAt _ _ _) j).children = _
  rw [hchild j]
  have hemp : ((updAt st.players k ⟨true, []⟩) k).children = [] := by
    rw [updAt_same]
  rw [shiftFrom_children_shift _ _ _ hemp j h1 (by omega)]
  exact congrArg Cont.children (updAt_ne _ _ _ _ (by omega))

/-! ## PlayerJoin and hand-overwrite characterization -/

lemma playerJoinStep_count (st : GDom) (n : Int) :
    (playerJoinStep st n).player_count = n := rfl

lemma playerJoinStep_players (st : GDom) (n j : Int) :
    (playerJoinStep st n).players j =
      if 0 ≤ j ∧ j < n then { st.players j with hidden := false }
      else st.players j := by
  show unhideFrom st.players 0 n.toNat j = _
  rw [unhideFrom_eq]
  have : (0 ≤ j ∧ j < 0 + (n.toNat : Int)) ↔ (0 ≤ j ∧ j < n) := by omega
  rw [if_congr this rfl rfl]

lemma overwriteSrcs_ok (hand : List Card) :
    ∀ imgs : List String, hand.length ≤ imgs.length →
      overwriteSrcs imgs hand =
        .ok (hand.map cardPath ++ imgs.drop hand.length) := by
  induction hand with
  | nil => intro imgs _; simp [overwriteSrcs]
  | cons c cs ih =>
      intro imgs h
      cases imgs with
      | nil => simp at h
      | cons i is =>
          rw [overwriteSrcs, ih is (by simpa using h)]
          rfl

lemma overwriteSrcs_err (hand : List Card) :
    ∀ imgs : List String, imgs.length < hand.length →
      overwriteSrcs imgs hand = .error .typeErr := by
  induction hand with
  | nil => intro imgs h; simp at h
  | cons c cs ih =>
      intro imgs h
      cases imgs with
      | nil => rfl
      | cons i is =>
          rw [overwriteSrcs, ih is (by simpa using h)]
          rfl

/-! ## The claims -/

/-- C1: for every click handler in every script, each value passed to
ws.send is one of the string literals EndTurn, Deal, Next, Clear, Shuffle,
Split, Click, GameStart, or a Bet object carrying the slider's numeric
amount; no other payload is ever sent. -/
theorem c1_click_payloads_allowed (h : ClickHandler) (j : Json)
    (hm : j ∈ sentPayloads h) : AllowedPayload j := by
  cases h <;> simp_all [sentPayloads, AllowedPayload, betPayload]

/-- Witness for C1: the end-turn handler of game.js sends the EndTurn
string, and it is an allowed payload. -/
theorem c1_witness :
    Json.str "EndTurn" ∈ sentPayloads ClickHandler.gameEndTurn ∧
    AllowedPayload (Json.str "EndTurn") :=
  ⟨by simp [sentPayloads],
   c1_click_payloads_allowed ClickHandler.gameEndTurn _ (by simp [sentPayloads])⟩

/-- Counterexample for C2: the src/static/game.js dispatcher does not
recognize the bare JSON string YourTurn (it selects no branch), and it
acts on an object owning the key PlayerJoin even when the object is not
single-key. -/
theorem c2_counterexample :
    dispatchGame (Json.str "YourTurn") = .ok none ∧
    dispatchGame (Json.obj [("PlayerJoin", Json.num 2), ("extra", Json.null)]) =
      .ok (some GBranch.playerJoin) :=
  ⟨rfl, rfl⟩

set_option maxHeartbeats 1000000 in
/-- C2 as amended: every inbound message the src/static/game.js
dispatcher acts on is either one of the bare string tags EndTurn, NewHost,
RequestBet, or an object owning (possibly among other keys) one of the
keys YourTurn, PlayerSplit, EndGame, PlayerJoin, PlayerLeave, Dealt,
DealDealer; YourTurn is recognized only as an object key via
hasOwnProperty, and any non-null message of none of these shapes selects
no branch, while a null message throws a TypeError. -/
theorem c2_dispatch_shapes :
    (∀ j : Json, j ≠ Json.null →
      ((∃ b, dispatchGame j = .ok (some b)) ↔
        (j.isStr "EndTurn" = true ∨ j.isStr "NewHost" = true ∨
         j.isStr "RequestBet" = true ∨ j.hasOwn "YourTurn" = true ∨
         j.hasOwn "PlayerSplit" = true ∨ j.hasOwn "EndGame" = true ∨
         j.hasOwn "PlayerJoin" = true ∨ j.hasOwn "PlayerLeave" = true ∨
         j.hasOwn "Dealt" = true ∨ j.hasOwn "DealDealer" = true))) ∧
    dispatchGame Json.null = .error JsError.typeErr := by
  constructor
  · intro j hj
    cases j <;> simp only [dispatchGame, Json.isStr, Json.hasOwn] <;>
      split_ifs <;> simp_all
  · rfl

/-- Witness for C2 as amended: the string EndTurn is not null and the
characterization applies to it. -/
theorem c2_witness :
    Json.str "EndTurn" ≠ Json.null ∧
    ((∃ b, dispatchGame (Json.str "EndTurn") = .ok (some b)) ↔
      (Json.isStr (Json.str "EndTurn") "EndTurn" = true ∨
       Json.isStr (Json.str "EndTurn") "NewHost" = true ∨
       Json.isStr (Json.str "EndTurn") "RequestBet" = true ∨
       Json.hasOwn (Json.str "EndTurn") "YourTurn" = true ∨
       Json.hasOwn (Json.str "EndTurn") "PlayerSplit" = true ∨
       Json.hasOwn (Json.str "EndTurn") "EndGame" = true ∨
       Json.hasOwn (Json.str "EndTurn") "PlayerJoin" = true ∨
       Json.hasOwn (Json.str "EndTurn") "PlayerLeave" = true ∨
       Json.hasOwn (Json.str "EndTurn") "Dealt" = true ∨
       Json.hasOwn (Json.str "EndTurn") "DealDealer" = true)) := by
  have hne : Json.str "EndTurn" ≠ Json.null := fun h => Json.noConfusion h
  exact ⟨hne, c2_dispatch_shapes.1 (Json.str "EndTurn") hne⟩

/-- C3: with P players shown and a leaving index k in range, PlayerLeave
moves each later player's card list down one slot in order, hides the
last container player P-1, and decrements the tracked count to P-1. -/
theorem c3_player_leave_shifts (st : GDom) (k : Int) (_hk0 : 0 ≤ k)
    (hk : k < st.player_count) :
    (∀ j : Int, k ≤ j → j < st.player_count →
        ((playerLeaveStep st k).players j).children =
          (st.players (j + 1)).children) ∧
    ((playerLeaveStep st k).players (st.player_count - 1)).hidden = true ∧
    (playerLeaveStep st k).player_count = st.player_count - 1 := by
  refine ⟨playerLeaveStep_children_shift st k hk, ?_, playerLeaveStep_count st k⟩
  rw [playerLeaveStep_players_hidden]
  simp

/-- A two-player table: players 0 and 1 visible with one card each. -/
def leaveDemo : GDom :=
  { initialGDom with
    player_count := 2,
    players := fun i =>
      if i = 0 then ⟨false, ["c0"]⟩
      else if i = 1 then ⟨false, ["c1"]⟩
      else ⟨true, []⟩ }

/-- Witness for C3: player 0 leaves a two-player table; player 1's card
moves into container 0, container 1 is hidden and the count drops to 1. -/
theorem c3_witness :
    (0 : Int) ≤ 0 ∧ (0 : Int) < leaveDemo.player_count ∧
    ((playerLeaveStep leaveDemo 0).players 0).children =
      (leaveDemo.players 1).children ∧
    ((playerLeaveStep leaveDemo 0).players (leaveDemo.player_count - 1)).hidden
      = true ∧
    (playerLeaveStep leaveDemo 0).player_count = leaveDemo.player_count - 1 := by
  have h := c3_player_leave_shifts leaveDemo 0 (by norm_num) (by decide)
  exact ⟨le_refl 0, by decide, h.1 0 (le_refl 0) (by decide), h.2.1, h.2.2⟩

/-- C4: PlayerJoin with count N sets the tracked count to N, removes the
hidden attribute of containers player 0 through player N-1 without
touching their children, and touches no other container. -/
theorem c4_player_join_reveals (st : GDom) (n : Int) (_hn : 0 ≤ n) :
    (playerJoinStep st n).player_count = n ∧
    (∀ i : Int, 0 ≤ i → i < n →
        (playerJoinStep st n).players i = { st.players i with hidden := false }) ∧
    (∀ i : Int, i < 0 ∨ n ≤ i → (playerJoinStep st n).players i = st.players i) ∧
    (playerJoinStep st n).splits = st.splits ∧
    (playerJoinStep st n).dealer = st.dealer := by
  refine ⟨rfl, ?_, ?_, rfl, rfl⟩
  · intro i h1 h2
    rw [playerJoinStep_players, if_pos ⟨h1, h2⟩]
  · intro i hi
    rw [playerJoinStep_players, if_neg (by omega)]

/-- Witness for C4: PlayerJoin with count 2 on the fresh page reveals
players 0 and 1 and leaves player 5 untouched. -/
theorem c4_witness :
    (0 : Int) ≤ 2 ∧
    (playerJoinStep initialGDom 2).player_count = 2 ∧
    (playerJoinStep initialGDom 2).players 0 =
      { initialGDom.players 0 with hidden := false } ∧
    (playerJoinStep initialGDom 2).players 5 = initialGDom.players 5 := by
  have h := c4_player_join_reveals initialGDom 2 (by norm_num)
  exact ⟨by norm_num, h.1, h.2.1 0 (le_refl 0) (by norm_num),
    h.2.2.1 5 (Or.inr (by norm_num))⟩

/-- C5: the image appended by Dealt and DealDealer has src exactly
/static/cards/ rank suit .svg for a non-null card, and
/static/cards/back.svg for a null (face-down) card. -/
theorem c5_card_image_src (st : GDom) (hand : Int) (c : Card) :
    ((dealtStep st hand false (some c)).players hand).children =
      (st.players hand).children ++
        ["/static/cards/" ++ c.rank ++ c.suit ++ ".svg"] ∧
    ((dealtStep st hand true (some c)).splits hand).children =
      (st.splits hand).children ++
        ["/static/cards/" ++ c.rank ++ c.suit ++ ".svg"] ∧
    ((dealtStep st hand false none).players hand).children =
      (st.players hand).children ++ ["/static/cards/back.svg"] ∧
    ((dealtStep st hand true none).splits hand).children =
      (st.splits hand).children ++ ["/static/cards/back.svg"] ∧
    (dealDealerStep st (some c)).dealer.children =
      st.dealer.children ++ ["/static/cards/" ++ c.rank ++ c.suit ++ ".svg"] ∧
    (dealDealerStep st none).dealer.children =
      st.dealer.children ++ ["/static/cards/back.svg"] := by
  refine ⟨?_, ?_, ?_, ?_, rfl, rfl⟩ <;>
    simp [dealtStep, updAt_same, cardSrc, cardPath]

/-- C6: Dealt appends exactly one image to the designated hand container
(the split container when second_hand holds) and no other container gains
or loses a child; DealDealer appends exactly one image to the dealer. -/
theorem c6_deal_frame (st : GDom) (hand : Int) (card : Option Card) :
    (((dealtStep st hand false card).players hand).children =
        (st.players hand).children ++ [cardSrc card] ∧
      (∀ i : Int, i ≠ hand →
        (dealtStep st hand false card).players i = st.players i) ∧
      (dealtStep st hand false card).splits = st.splits ∧
      (dealtStep st hand false card).dealer = st.dealer) ∧
    (((dealtStep st hand true card).splits hand).children =
        (st.splits hand).children ++ [cardSrc card] ∧
      (∀ i : Int, i ≠ hand →
        (dealtStep st hand true card).splits i = st.splits i) ∧
      (dealtStep st hand true card).players = st.players ∧
      (dealtStep st hand true card).dealer = st.dealer) ∧
    ((dealDealerStep st card).dealer.children =
        st.dealer.children ++ [cardSrc card] ∧
      (dealDealerStep st card).players = st.players ∧
      (dealDealerStep st card).splits = st.splits) := by
  refine ⟨⟨?_, ?_, rfl, rfl⟩, ⟨?_, ?_, rfl, rfl⟩, rfl, rfl, rfl⟩
  · simp [dealtStep, updAt_same]
  · intro i hi
    simp [dealtStep, updAt_ne _ _ _ _ hi]
  · simp [dealtStep, updAt_same]
  · intro i hi
    simp [dealtStep, updAt_ne _ _ _ _ hi]

/-- Witness for C6: a face-down card dealt to player 0 lands in container
0 only; container 1 is untouched. -/
theorem c6_witness :
    ((dealtStep initialGDom 0 false none).players 0).children =
      (initialGDom.players 0).children ++ [cardSrc none] ∧
    (1 : Int) ≠ 0 ∧
    (dealtStep initialGDom 0 false none).players 1 = initialGDom.players 1 := by
  have h := c6_deal_frame initialGDom 0 none
  exact ⟨h.1.1, by norm_num, h.1.2.1 1 (by norm_num)⟩

/-- C7: an event whose data is not valid JSON makes the callback raise an
uncaught SyntaxError at the JSON.parse call, before any DOM mutation, in
both the game.js handler and the first buttons.js handler; the observed
DOM is exactly the pre-event state. -/
theorem c7_invalid_json_aborts (st : GDom) (stN : B1Dom) (data : String)
    (h : jsonParse data = none) :
    onmessageGame st data = .error .badJson ∧
    gDomAfter st data = st ∧
    onmessageNumbers stN data = .error .badJson ∧
    b1DomAfter stN data = stN := by
  refine ⟨?_, ?_, ?_, ?_⟩ <;>
    simp [onmessageGame, onmessageNumbers, gDomAfter, b1DomAfter, h]

/-- Witness for C7: the data string -- not json -- fails to parse and both
handlers abort with the DOM unchanged. -/
theorem c7_witness :
    jsonParse "not json" = none ∧
    onmessageGame initialGDom "not json" = .error .badJson ∧
    gDomAfter initialGDom "not json" = initialGDom ∧
    onmessageNumbers ⟨true, true, []⟩ "not json" = .error .badJson ∧
    b1DomAfter ⟨true, true, []⟩ "not json" = ⟨true, true, []⟩ := by
  have h : jsonParse "not json" = none := rfl
  have hc := c7_invalid_json_aborts initialGDom ⟨true, true, []⟩ "not json" h
  exact ⟨h, hc.1, hc.2.1, hc.2.2.1, hc.2.2.2⟩

/-- Orderly join-and-leave sequences preserve the tracked-count
invariant: joins never shrink the count and leaves remove the last
player. -/
lemma orderly_preserves (msgs : List JLMsg) :
    ∀ st : GDom, CountMatchesVisible st → 0 ≤ st.player_count →
      orderlySeq st msgs = true →
      CountMatchesVisible (runJL st msgs) := by
  induction msgs with
  | nil => intro st hv _ _; exact hv
  | cons m rest ih =>
      intro st hv h0 hseq
      cases m with
      | join n =>
          simp only [orderlySeq, Bool.and_eq_true, decide_eq_true_eq] at hseq
          obtain ⟨hn, hrest⟩ := hseq
          rw [runJL]
          refine ih (playerJoinStep st n) ?_ ?_ hrest
          · intro i
            rw [playerJoinStep_players, playerJoinStep_count]
            by_cases hi : 0 ≤ i ∧ i < n
            · rw [if_pos hi]
              simpa using hi
            · rw [if_neg hi]
              constructor
              · intro hvis
                have := (hv i).1 hvis
                omega
              · intro hi2
                exact absurd hi2 hi
          · rw [playerJoinStep_count]; omega
      | leave k =>
          simp only [orderlySeq, Bool.and_eq_true, decide_eq_true_eq,
            beq_iff_eq] at hseq
          obtain ⟨⟨h1, hk⟩, hrest⟩ := hseq
          rw [runJL]
          refine ih (playerLeaveStep st k) ?_ ?_ hrest
          · intro i
            rw [playerLeaveStep_players_hidden, playerLeaveStep_count]
            subst hk
            by_cases hi : i = st.player_count - 1
            · rw [if_pos (Or.inr hi)]
              constructor
              · intro hfalse
                exact absurd hfalse (by simp)
              · intro hi2
                omega
            · rw [if_neg (by tauto)]
              rw [hv i]
              omega
          · rw [playerLeaveStep_count]; omega

/-- Counterexample for C8: from the fresh page, the in-range sequence
PlayerJoin 2 then PlayerLeave 0 leaves the tracked count at 1 while no
primary container among player 0 and player 1 is visible, so the count
does not equal the number of visible containers. -/
theorem c8_counterexample :
    (runJL initialGDom [JLMsg.join 2, JLMsg.leave 0]).player_count = 1 ∧
    ((runJL initialGDom [JLMsg.join 2, JLMsg.leave 0]).players 0).hidden
      = true ∧
    ((runJL initialGDom [JLMsg.join 2, JLMsg.leave 0]).players 1).hidden
      = true ∧
    ¬ CountMatchesVisible (runJL initialGDom [JLMsg.join 2, JLMsg.leave 0]) := by
  refine ⟨rfl, by decide, by decide, ?_⟩
  intro h
  have h0 := (h 0).2 ⟨le_refl 0, by decide⟩
  exact absurd h0 (by decide)

/-- C8 as amended: from the initial state, after any sequence of
PlayerJoin and PlayerLeave messages in which each join's count is at
least the current count and each leave removes the last player (index
count-1), the tracked count equals the number of visible primary
containers (the visible ones are exactly player 0 through player
count-1); a PlayerLeave of a non-last player breaks the equality, as the
leaving player's container stays hidden while still counted. -/
theorem c8_amended_invariant (msgs : List JLMsg)
    (h : orderlySeq initialGDom msgs = true) :
    CountMatchesVisible (runJL initialGDom msgs) := by
  refine orderly_preserves msgs initialGDom ?_ (by norm_num [initialGDom]) h
  intro i
  constructor
  · intro hfalse
    have : (true : Bool) = false := hfalse
    exact absurd this (by simp)
  · intro hi
    have : i < (0 : Int) := hi.2
    omega

/-- Witness for C8 as amended: joining two players and removing the last
one is an orderly sequence, and the invariant holds at its end. -/
theorem c8_witness :
    orderlySeq initialGDom [JLMsg.join 2, JLMsg.leave 1] = true ∧
    CountMatchesVisible (runJL initialGDom [JLMsg.join 2, JLMsg.leave 1]) :=
  ⟨rfl, c8_amended_invariant [JLMsg.join 2, JLMsg.leave 1] rfl⟩

/-- C9: TotalHand and TotalDealerHand succeed exactly when the hand is no
longer than the container's image list; then the i-th image's src becomes
the i-th card's path (later images keep their src), and a longer hand
makes the handler fault on a missing image. -/
theorem c9_total_hand_bounds (st : GDom) (p : Int) (hand : List Card) :
    (hand.length ≤ (st.players p).children.length →
      totalHandStep st p false hand =
        .ok { st with players := updAt st.players p ⟨(st.players p).hidden, hand.map cardPath ++ (st.players p).children.drop hand.length⟩ }) ∧
    ((st.players p).children.length < hand.length →
      totalHandStep st p false hand = .error .typeErr) ∧
    (hand.length ≤ (st.splits p).children.length →
      totalHandStep st p true hand =
        .ok { st with splits := updAt st.splits p ⟨(st.splits p).hidden, hand.map cardPath ++ (st.splits p).children.drop hand.length⟩ }) ∧
    ((st.splits p).children.length < hand.length →
      totalHandStep st p true hand = .error .typeErr) ∧
    (hand.length ≤ st.dealer.children.length →
      totalDealerHandStep st hand =
        .ok { st with dealer := { st.dealer with
          children := hand.map cardPath ++ st.dealer.children.drop hand.length } }) ∧
    (st.dealer.children.length < hand.length →
      totalDealerHandStep st hand = .error .typeErr) := by
  refine ⟨?_, ?_, ?_, ?_, ?_, ?_⟩
  · intro h
    simp [totalHandStep, overwriteSrcs_ok hand _ h, Except.map]
  · intro h
    simp [totalHandStep, overwriteSrcs_err hand _ h, Except.map]
  · intro h
    simp [totalHandStep, overwriteSrcs_ok hand _ h, Except.map]
  · intro h
    simp [totalHandStep, overwriteSrcs_err hand _ h, Except.map]
  · intro h
    simp [totalDealerHandStep, overwriteSrcs_ok hand _ h, Except.map]
  · intro h
    simp [totalDealerHandStep, overwriteSrcs_err hand _ h, Except.map]

/-- A table whose dealer container holds two face-down images. -/
def tableDemo : GDom :=
  { initialGDom with dealer := ⟨false, ["back", "back"]⟩ }

/-- Witness for C9: one card fits the two dealer images, so
TotalDealerHand succeeds and rewrites the first image's src. -/
theorem c9_witness :
    ([(⟨"A", "S"⟩ : Card)].length ≤ tableDemo.dealer.children.length) ∧
    totalDealerHandStep tableDemo [⟨"A", "S"⟩] =
      .ok { tableDemo with dealer := { tableDemo.dealer with
        children := [(⟨"A", "S"⟩ : Card)].map cardPath ++
          tableDemo.dealer.children.drop [(⟨"A", "S"⟩ : Card)].length } } := by
  have h : ([(⟨"A", "S"⟩ : Card)].length ≤ tableDemo.dealer.children.length) := by
    decide
  exact ⟨h, (c9_total_hand_bounds tableDemo 0 [⟨"A", "S"⟩]).2.2.2.2.1 h⟩

/-- C10: the single-button clients enable the click button and change
nothing else on the exact JSON string YourTurn, and on any other message
log an error and leave all state unchanged. -/
theorem c10_single_button (st : ClickDom) (msg : Json) :
    (msg.isStr "YourTurn" = true →
      part001OnMessage st msg = ({ st with clickDisabled := false }, false) ∧
      part002OnMessage st msg = ({ st with clickDisabled := false }, false)) ∧
    (msg.isStr "YourTurn" = false →
      part001OnMessage st msg = (st, true) ∧
      part002OnMessage st msg = (st, true)) ∧
    (msg.isStr "YourTurn" = true ↔ msg = Json.str "YourTurn") := by
  refine ⟨?_, ?_, ?_⟩
  · intro h
    simp [part001OnMessage, part002OnMessage, h]
  · intro h
    simp [part001OnMessage, part002OnMessage, h]
  · cases msg <;> simp [Json.isStr]

/-- The single-button page after joining. -/
def clickDemo : ClickDom := ⟨true, true, true, false, true⟩

/-- Witness for C10: the string YourTurn enables the click button; the
number 5 is logged as an error and changes nothing. -/
theorem c10_witness :
    Json.isStr (Json.str "YourTurn") "YourTurn" = true ∧
    part001OnMessage clickDemo (Json.str "YourTurn") =
      ({ clickDemo with clickDisabled := false }, false) ∧
    Json.isStr (Json.num 5) "YourTurn" = false ∧
    part001OnMessage clickDemo (Json.num 5) = (clickDemo, true) := by
  refine ⟨rfl, ?_, rfl, ?_⟩
  · exact ((c10_single_button clickDemo (Json.str "YourTurn")).1 rfl).1
  · exact ((c10_single_button clickDemo (Json.num 5)).2.1 rfl).1

end CardClient
